import Mathlib

/-!
Shallow embedding of the BTPI-REACT portal core (src/portal/app.py):
the changelog store (`ChangelogManager`), the container monitor
(`ContainerMonitor`), its probe-output parser and status differ, and the
manual start/stop/restart actuators.

Conventions of the embedding:
* `datetime.now()` is passed in explicitly as a `now : String` argument.
* `subprocess.run` outcomes are passed in as a `ProcOutcome` value:
  `ok returncode stdout stderr` for a completed process, `exn msg` for any
  raised exception (including `TimeoutExpired`).
* Python dicts (insertion-ordered, unique keys) are modelled as association
  lists; theorems that need key uniqueness take a `Nodup` hypothesis.
* Python truthiness on the optional `limit` / `level` arguments is modelled
  exactly: `0` and `""` are falsy.
-/

set_option maxRecDepth 4096

/-- The apostrophe character used by the f-string details in the source. -/
def sqChar : String := String.singleton (Char.ofNat 39)

/-- One changelog entry, as built by `ChangelogManager.add_entry`. -/
structure Entry where
  timestamp : String
  action : String
  details : String
  user : String
  level : String
  id : Nat
deriving Repr, DecidableEq

/-- The in-memory changelog document: `entries` plus the
`metadata.total_entries` counter maintained by `add_entry`. -/
structure Changelog where
  entries : List Entry
  total_entries : Nat
deriving Repr, DecidableEq

/-- A freshly initialized changelog (`load_changelog` with no existing file). -/
def emptyChangelog : Changelog := ⟨[], 0⟩

/-- The entry that `add_entry` constructs: id is current length + 1. -/
def entryFor (now : String) (cl : Changelog) (action details user level : String) : Entry :=
  ⟨now, action, details, user, level, cl.entries.length + 1⟩

/-- `ChangelogManager.add_entry`: append the new entry and refresh the
`total_entries` metadata counter. -/
def add_entry (now : String) (cl : Changelog) (action details user level : String) : Changelog :=
  ⟨cl.entries ++ [entryFor now cl action details user level], cl.entries.length + 1⟩

/-- Python slice `l[s:]` for an integer start index `s`. -/
def pySliceFrom {α : Type} (l : List α) (s : Int) : List α :=
  if s < 0 then l.drop (l.length - (-s).toNat) else l.drop s.toNat

/-- `ChangelogManager.get_entries(limit, level)`.  Mirrors the Python
truthiness tests: `if level:` is false for `None` and `""`; `if limit:` is
false for `None` and `0`. -/
def get_entries (cl : Changelog) (limit : Option Int) (level : Option String) : List Entry :=
  let entries := cl.entries
  let entries :=
    match level with
    | some lv => if lv = "" then entries else entries.filter (fun e => e.level = lv)
    | none => entries
  match limit with
  | some n => if n = 0 then entries else pySliceFrom entries (-n)
  | none => entries

/-- Python `d[k] = d.get(k, 0) + 1` on a counting dict. -/
def bump (m : List (String × Nat)) (k : String) : List (String × Nat) :=
  match m with
  | [] => [(k, 1)]
  | (a, b) :: rest => if a = k then (a, b + 1) :: rest else (a, b) :: bump rest k

/-- The record returned by `ChangelogManager.get_stats`. -/
structure Stats where
  total_entries : Nat
  by_level : List (String × Nat)
  by_action : List (String × Nat)
  recent_activity : Nat
deriving Repr, DecidableEq

/-- `ChangelogManager.get_stats`.  The 24-hour recency test on timestamps is
abstracted as the predicate `isRecent` (it only feeds `recent_activity`). -/
def get_stats (isRecent : String → Bool) (cl : Changelog) : Stats :=
  { total_entries := cl.entries.length
    by_level := cl.entries.foldl (fun m e => bump m e.level) []
    by_action := cl.entries.foldl (fun m e => bump m e.action) []
    recent_activity := (cl.entries.filter (fun e => isRecent e.timestamp)).length }

/-- Outcome of a `subprocess.run` call: either a completed process with its
return code and captured output, or a raised exception (timeout included). -/
inductive ProcOutcome where
  | ok (returncode : Int) (stdout stderr : String)
  | exn (msg : String)
deriving Repr, DecidableEq

/-- One container's record as built by `get_all_container_status`. -/
structure Snapshot where
  name : String
  status : String
  status_text : String
  color : String
  ports : String
  image : String
  size : String
  last_updated : String
deriving Repr, DecidableEq

/-- Python `s.split(sep)` on the underlying character list, with enough fuel
to consume the whole input (structurally recursive, so concrete instances
evaluate inside the kernel). -/
def splitAux (sep : List Char) (fuel : Nat) (cs : List Char) : List (List Char) :=
  match fuel with
  | 0 => [cs]
  | fuel' + 1 =>
    match cs with
    | [] => [[]]
    | c :: rest =>
      if sep.isPrefixOf (c :: rest) then
        [] :: splitAux sep fuel' (List.drop sep.length (c :: rest))
      else
        match splitAux sep fuel' rest with
        | [] => [[c]]
        | w :: ws => (c :: w) :: ws

/-- Python `s.split(sep)`: every occurrence of the separator produces a
boundary, empty pieces preserved. -/
def pySplit (sep s : String) : List String :=
  if sep = "" then [s]
  else (splitAux sep.data (s.data.length + 1) s.data).map String.mk

/-- Python `s.strip()`: drop leading and trailing whitespace. -/
def pyStrip (s : String) : String :=
  String.mk (((s.data.dropWhile Char.isWhitespace).reverse.dropWhile
    Char.isWhitespace).reverse)

/-- Python's substring test `pat in hay` for a nonempty pattern: the split on
the pattern has more than one piece. -/
def containsStr (hay pat : String) : Bool := decide (1 < (pySplit pat hay).length)

/-- The status-type / status-color classification chain of
`get_all_container_status`: ordered substring match on the status text. -/
def classifyStatus (status : String) : String × String :=
  if containsStr status "Up" then ("running", "success")
  else if containsStr status "Exited" then ("stopped", "danger")
  else if containsStr status "Created" then ("created", "warning")
  else ("unknown", "secondary")

/-- Parse one line of `docker ps -a` output, as in the body of the `for line`
loop of `get_all_container_status`: skip blank lines and lines with fewer
than five tab-separated columns; otherwise classify the status text by
ordered substring match. -/
def parseLine (now line : String) : Option (String × Snapshot) :=
  if pyStrip line = "" then none
  else
    let parts := pySplit "\t" line
    if h : 5 ≤ parts.length then
      let name := pyStrip (parts.get ⟨0, by omega⟩)
      let status := pyStrip (parts.get ⟨1, by omega⟩)
      let ports := pyStrip (parts.get ⟨2, by omega⟩)
      let image := pyStrip (parts.get ⟨3, by omega⟩)
      let size := pyStrip (parts.get ⟨4, by omega⟩)
      let sc := classifyStatus status
      some (name, ⟨name, sc.1, status, sc.2, ports, image, size, now⟩)
    else none

/-- Python dict assignment `d[k] = v` on an insertion-ordered association
list: replace in place if the key exists, else append. -/
def dictInsert {β : Type} (m : List (String × β)) (k : String) (v : β) : List (String × β) :=
  match m with
  | [] => [(k, v)]
  | (a, b) :: rest => if a = k then (k, v) :: rest else (a, b) :: dictInsert rest k v

/-- A fleet view: the `containers` dict of `get_all_container_status`. -/
abbrev FleetView := List (String × Snapshot)

/-- Build the `containers` dict from the split lines of the probe's stdout. -/
def buildView (now : String) (lines : List String) : FleetView :=
  lines.foldl
    (fun m line =>
      match parseLine now line with
      | some (n, s) => dictInsert m n s
      | none => m) []

/-- `ContainerMonitor.get_all_container_status`: empty view on a non-zero
exit code or on any exception (both failure paths return `{}`). -/
def get_all_container_status (now : String) (res : ProcOutcome) : FleetView :=
  match res with
  | .ok rc stdout _ => if rc = 0 then buildView now (pySplit "\n" (pyStrip stdout)) else []
  | .exn _ => []

/-- A state-transition event emitted by `_check_status_changes`. -/
inductive ChangeEvent where
  | started (name status : String)
  | statusChanged (name oldStatus newStatus : String)
  | stopped (name : String)
deriving Repr, DecidableEq

/-- The name the event is about. -/
def eventName (e : ChangeEvent) : String :=
  match e with
  | .started n _ => n
  | .statusChanged n _ _ => n
  | .stopped n => n

/-- Whether the event is a `stopped` event. -/
def isStopped (e : ChangeEvent) : Bool :=
  match e with
  | .stopped _ => true
  | _ => false

/-- The `(action, details, level)` triple that `_check_status_changes` passes
to `add_entry` for an event. -/
def entryOfEvent (e : ChangeEvent) : String × String × String :=
  match e with
  | .started n s =>
      ("container_started",
       "Container " ++ sqChar ++ n ++ sqChar ++ " started with status: " ++ s, "info")
  | .statusChanged n o s =>
      ("container_status_changed",
       "Container " ++ sqChar ++ n ++ sqChar ++ " status changed from " ++ sqChar ++ o
         ++ sqChar ++ " to " ++ sqChar ++ s ++ sqChar, "warning")
  | .stopped n =>
      ("container_stopped", "Container " ++ sqChar ++ n ++ sqChar ++ " stopped", "warning")

/-- The body of the first `for` loop of `_check_status_changes` for one
`(name, status)` item of the current view: a `started` event when the name
is new, a `statusChanged` event when the status differs, nothing otherwise. -/
def diffCurrEntry (prev : List (String × String)) (p : String × String) :
    Option ChangeEvent :=
  match List.lookup p.1 prev with
  | none => some (.started p.1 p.2)
  | some old => if old = p.2 then none else some (.statusChanged p.1 old p.2)

/-- The body of the second `for` loop of `_check_status_changes` for one
item of the previous status map: a `stopped` event when the name is gone. -/
def diffPrevEntry (curr : List (String × String)) (p : String × String) :
    Option ChangeEvent :=
  match List.lookup p.1 curr with
  | none => some (.stopped p.1)
  | some _ => none

/-- `ContainerMonitor._check_status_changes`, with the status maps made
explicit: `prev` is `self.previous_status` (name to status), `curr` is the
name-to-status projection of the probed view.  Events are listed in the
order the two `for` loops append them. -/
def check_status_changes (prev curr : List (String × String)) : List ChangeEvent :=
  curr.filterMap (diffCurrEntry prev) ++ prev.filterMap (diffPrevEntry curr)

/-- The name-to-status projection of a fleet view, as assigned to
`self.previous_status` at the end of each monitor cycle. -/
def statusMap (v : FleetView) : List (String × String) :=
  v.map (fun p => (p.1, p.2.status))

/-- The monitor's mutable state: `container_status`, `previous_status`, and
the shared changelog. -/
structure MonitorState where
  container_status : FleetView
  previous_status : List (String × String)
  changelog : Changelog
deriving Repr, DecidableEq

/-- Append all diff events to the changelog, one `add_entry` per event, with
the default user `"system"`. -/
def appendEvents (now : String) (evs : List ChangeEvent) (cl : Changelog) : Changelog :=
  evs.foldl
    (fun c e =>
      let t := entryOfEvent e
      add_entry now c t.1 t.2.1 "system" t.2.2) cl

/-- One iteration of `ContainerMonitor._monitor_loop`: probe, diff against
the stored `previous_status`, append the events, then replace the stored
view and status map. -/
def monitor_cycle (now : String) (res : ProcOutcome) (st : MonitorState) : MonitorState :=
  let current := get_all_container_status now res
  let events := check_status_changes st.previous_status (statusMap current)
  ⟨current, statusMap current, appendEvents now events st.changelog⟩

/-- A probe failure: the list command raised (timeout included) or exited
non-zero. -/
def probeFailed (res : ProcOutcome) : Prop :=
  match res with
  | .ok rc _ _ => rc ≠ 0
  | .exn _ => True

instance (res : ProcOutcome) : Decidable (probeFailed res) := by
  unfold probeFailed
  cases res <;> infer_instance

/-- The reply dict `{"success": ..., "message": ...}` of the actuators. -/
structure CmdReply where
  success : Bool
  message : String
deriving Repr, DecidableEq

/-- `ContainerMonitor.start_container`. -/
def start_container (now name : String) (res : ProcOutcome) (cl : Changelog) :
    Changelog × CmdReply :=
  match res with
  | .ok rc _ stderr =>
      if rc = 0 then
        (add_entry now cl "container_started"
           ("Container " ++ sqChar ++ name ++ sqChar ++ " started manually") "system" "info",
         ⟨true, "Container " ++ name ++ " started successfully"⟩)
      else (cl, ⟨false, "Failed to start container: " ++ stderr⟩)
  | .exn m => (cl, ⟨false, "Error starting container: " ++ m⟩)

/-- `ContainerMonitor.stop_container`. -/
def stop_container (now name : String) (res : ProcOutcome) (cl : Changelog) :
    Changelog × CmdReply :=
  match res with
  | .ok rc _ stderr =>
      if rc = 0 then
        (add_entry now cl "container_stopped"
           ("Container " ++ sqChar ++ name ++ sqChar ++ " stopped manually") "system" "info",
         ⟨true, "Container " ++ name ++ " stopped successfully"⟩)
      else (cl, ⟨false, "Failed to stop container: " ++ stderr⟩)
  | .exn m => (cl, ⟨false, "Error stopping container: " ++ m⟩)

/-- `ContainerMonitor.restart_container`. -/
def restart_container (now name : String) (res : ProcOutcome) (cl : Changelog) :
    Changelog × CmdReply :=
  match res with
  | .ok rc _ stderr =>
      if rc = 0 then
        (add_entry now cl "container_restarted"
           ("Container " ++ sqChar ++ name ++ sqChar ++ " restarted manually") "system" "info",
         ⟨true, "Container " ++ name ++ " restarted successfully"⟩)
      else (cl, ⟨false, "Failed to restart container: " ++ stderr⟩)
  | .exn m => (cl, ⟨false, "Error restarting container: " ++ m⟩)

/-- Running a sequence of `(action, details, user, level)` appends from the
empty changelog. -/
def run_appends (now : String) (ops : List (String × String × String × String)) : Changelog :=
  ops.foldl (fun cl o => add_entry now cl o.1 o.2.1 o.2.2.1 o.2.2.2) emptyChangelog

/-! ### Helper lemmas about the changelog store -/

/-- The entries appended by a sequence of ops, starting after `k` existing
entries. -/
def entriesFrom (now : String) (k : Nat) (ops : List (String × String × String × String)) :
    List Entry :=
  match ops with
  | [] => []
  | o :: rest => ⟨now, o.1, o.2.1, o.2.2.1, o.2.2.2, k + 1⟩ :: entriesFrom now (k + 1) rest

theorem foldl_add_entry_entries (now : String)
    (ops : List (String × String × String × String)) (cl : Changelog) :
    (ops.foldl (fun c o => add_entry now c o.1 o.2.1 o.2.2.1 o.2.2.2) cl).entries
      = cl.entries ++ entriesFrom now cl.entries.length ops := by
  induction ops generalizing cl with
  | nil => simp [entriesFrom]
  | cons o rest ih =>
      simp only [List.foldl_cons, entriesFrom]
      rw [ih]
      simp [add_entry, entryFor]

theorem entriesFrom_get (now : String) (ops : List (String × String × String × String))
    (k : Nat) (i : Nat) (h : i < (entriesFrom now k ops).length) :
    ((entriesFrom now k ops).get ⟨i, h⟩).id = k + i + 1 := by
  induction ops generalizing k i with
  | nil => simp [entriesFrom] at h
  | cons o rest ih =>
      cases i with
      | zero => simp [entriesFrom]
      | succ j =>
          simp only [entriesFrom, List.get_cons_succ]
          have hj : j < (entriesFrom now (k + 1) rest).length := by
            simpa [entriesFrom] using h
          rw [ih (k + 1) j hj]
          omega

theorem run_appends_entries (now : String)
    (ops : List (String × String × String × String)) :
    (run_appends now ops).entries = entriesFrom now 0 ops := by
  simpa [emptyChangelog] using foldl_add_entry_entries now ops emptyChangelog

/-- C4: starting from an empty store, the n-th appended entry has id n
(1-based, strictly increasing, no gaps), and a later append only extends the
entry list, never mutating or removing an existing entry. -/
theorem changelog_ids_sequential (now : String)
    (ops : List (String × String × String × String)) :
    (∀ i (h : i < (run_appends now ops).entries.length),
        ((run_appends now ops).entries.get ⟨i, h⟩).id = i + 1) ∧
    (∀ op, ∃ e, (run_appends now (ops ++ [op])).entries
        = (run_appends now ops).entries ++ [e]) := by
  constructor
  · intro i h
    have h' : i < (entriesFrom now 0 ops).length := by
      rw [run_appends_entries] at h; exact h
    rw [List.get_of_eq (run_appends_entries now ops)]
    simpa using entriesFrom_get now ops 0 i h'
  · intro op
    refine ⟨entryFor now (run_appends now ops) op.1 op.2.1 op.2.2.1 op.2.2.2, ?_⟩
    simp [run_appends, List.foldl_append, add_entry]

/-- Closed witness for `changelog_ids_sequential` at a two-op sequence. -/
theorem changelog_ids_sequential_witness :
    ((run_appends "T" [("a", "b", "u", "info"), ("c", "d", "u", "warning")]).entries.get
        ⟨1, by decide⟩).id = 2 :=
  (changelog_ids_sequential "T" [("a", "b", "u", "info"), ("c", "d", "u", "warning")]).1 1
    (by decide)

/-! ### Stats totals -/

/-- Sum of the counts in a counting dict. -/
def sumCounts (m : List (String × Nat)) : Nat := (m.map Prod.snd).sum

theorem bump_sumCounts (m : List (String × Nat)) (k : String) :
    sumCounts (bump m k) = sumCounts m + 1 := by
  induction m with
  | nil => simp [bump, sumCounts]
  | cons p rest ih =>
      obtain ⟨a, b⟩ := p
      by_cases hak : a = k
      · simp [bump, hak, sumCounts]
        omega
      · simp only [bump, if_neg hak]
        simp [sumCounts] at ih ⊢
        omega

theorem foldl_bump_sumCounts (f : Entry → String) (es : List Entry)
    (m : List (String × Nat)) :
    sumCounts (es.foldl (fun m e => bump m (f e)) m) = sumCounts m + es.length := by
  induction es generalizing m with
  | nil => simp
  | cons e rest ih =>
      simp only [List.foldl_cons, List.length_cons]
      rw [ih, bump_sumCounts]
      omega

/-- C8: `get_stats` reports a total equal to the length of an unfiltered
read, and the per-level and per-action counts each sum to that total. -/
theorem stats_totals (isRecent : String → Bool) (cl : Changelog) :
    (get_stats isRecent cl).total_entries = (get_entries cl none none).length ∧
    sumCounts (get_stats isRecent cl).by_level = (get_stats isRecent cl).total_entries ∧
    sumCounts (get_stats isRecent cl).by_action = (get_stats isRecent cl).total_entries := by
  refine ⟨rfl, ?_, ?_⟩
  · simpa [get_stats, sumCounts] using foldl_bump_sumCounts (fun e => e.level) cl.entries []
  · simpa [get_stats, sumCounts] using foldl_bump_sumCounts (fun e => e.action) cl.entries []

/-! ### Reads: limit and level handling -/

/-- C10: `limit=0` is falsy in Python, so `read(limit=0, level=L)` returns
the full level-filtered sequence, exactly as when no limit is given. -/
theorem read_limit_zero (cl : Changelog) (level : Option String) :
    get_entries cl (some 0) level = get_entries cl none level := by
  cases level <;> simp [get_entries]

/-- C7 counterexample: with one stored entry, `read(limit=0)` returns that
entry rather than "at most the last 0 entries" (which would be none),
because `if limit:` is a truthiness test. -/
theorem read_limit_claim_counterexample :
    get_entries (add_entry "T" emptyChangelog "a" "d" "system" "info") (some 0) none ≠ [] ∧
    (get_entries (add_entry "T" emptyChangelog "a" "d" "system" "info") (some 0) none).length
      = 1 := by
  constructor <;> decide

/-- C7 (amended): `read` filters by a non-empty level first, then for a
positive limit returns exactly the last `limit` entries of the filtered
sequence (hence at most `limit` of them, in original relative order); with
no limit it returns the full filtered sequence, and immediately after an
append, `read(limit=1)` returns exactly the just-appended entry.  (`limit=0`
behaves like no limit; see `read_limit_zero`.) -/
theorem read_filter_then_limit (cl : Changelog) (n : Int) (hn : 0 < n) (lv : String)
    (hlv : lv ≠ "") :
    get_entries cl none (some lv) = cl.entries.filter (fun e => e.level = lv) ∧
    get_entries cl none none = cl.entries ∧
    get_entries cl (some n) (some lv)
      = (cl.entries.filter (fun e => e.level = lv)).drop
          ((cl.entries.filter (fun e => e.level = lv)).length - n.toNat) ∧
    get_entries cl (some n) none = cl.entries.drop (cl.entries.length - n.toNat) ∧
    (get_entries cl (some n) (some lv)).length ≤ n.toNat ∧
    (get_entries cl (some n) none).length ≤ n.toNat ∧
    (∀ a d u l now, get_entries (add_entry now cl a d u l) (some 1) none
        = [entryFor now cl a d u l]) := by
  have hn0 : n ≠ 0 := by omega
  have hneg : -n < 0 := by omega
  have hslice : ∀ l : List Entry, pySliceFrom l (-n) = l.drop (l.length - n.toNat) := by
    intro l
    simp [pySliceFrom, hneg]
  refine ⟨by simp [get_entries, hlv], rfl, ?_, ?_, ?_, ?_, ?_⟩
  · simp [get_entries, hlv, hn0, hslice]
  · simp [get_entries, hn0, hslice]
  · simp [get_entries, hlv, hn0, hslice]
    omega
  · simp [get_entries, hn0, hslice]
    omega
  · intro a d u l now
    simp [get_entries, add_entry, pySliceFrom]

/-- Closed witness for `read_filter_then_limit`: after one append,
`read(limit=1)` returns exactly the appended entry. -/
theorem read_filter_then_limit_witness :
    get_entries (add_entry "T" emptyChangelog "a" "d" "system" "info") (some 1) none
      = [entryFor "T" emptyChangelog "a" "d" "system" "info"] :=
  (read_filter_then_limit emptyChangelog 1 (by decide) "info" (by decide)).2.2.2.2.2.2
    "a" "d" "system" "info" "T"

/-- C3: a non-zero exit code or a raised exception (timeout included) on a
manual start/stop/restart leaves the changelog unchanged and yields
`success=false` with the captured error text in the message. -/
theorem actuator_failure_no_append (now name stdout stderr m : String) (rc : Int)
    (hrc : rc ≠ 0) (cl : Changelog) :
    start_container now name (.ok rc stdout stderr) cl
      = (cl, ⟨false, "Failed to start container: " ++ stderr⟩) ∧
    stop_container now name (.ok rc stdout stderr) cl
      = (cl, ⟨false, "Failed to stop container: " ++ stderr⟩) ∧
    restart_container now name (.ok rc stdout stderr) cl
      = (cl, ⟨false, "Failed to restart container: " ++ stderr⟩) ∧
    start_container now name (.exn m) cl
      = (cl, ⟨false, "Error starting container: " ++ m⟩) ∧
    stop_container now name (.exn m) cl
      = (cl, ⟨false, "Error stopping container: " ++ m⟩) ∧
    restart_container now name (.exn m) cl
      = (cl, ⟨false, "Error restarting container: " ++ m⟩) := by
  refine ⟨?_, ?_, ?_, rfl, rfl, rfl⟩ <;>
    simp [start_container, stop_container, restart_container, hrc]

/-- Closed witness for `actuator_failure_no_append` at exit code 1. -/
theorem actuator_failure_no_append_witness :
    start_container "T" "web" (.ok 1 "" "boom") emptyChangelog
      = (emptyChangelog, ⟨false, "Failed to start container: " ++ "boom"⟩) :=
  (actuator_failure_no_append "T" "web" "" "boom" "x" 1 (by decide) emptyChangelog).1

/-- C2 counterexample: a successful manual start appends its entry with the
default user `"system"`, not `"manual"` (the `user=` keyword is never passed
by the actuators). -/
theorem manual_actor_counterexample :
    ((start_container "T" "web" (ProcOutcome.ok 0 "" "") emptyChangelog).1.entries.map
        (fun e => e.user) = ["system"]) ∧
    ("system" : String) ≠ "manual" := by
  constructor <;> decide

/-- C2 (amended): a successful manual start/stop/restart appends exactly one
changelog entry, tagged with the corresponding action
(`container_started` / `container_stopped` / `container_restarted`) at level
`info` — but its actor is the default `"system"`, not `"manual"` (only the
free-text details mention a manual operation). -/
theorem manual_action_appends_one (now name stdout stderr : String) (cl : Changelog) :
    (∃ e, (start_container now name (.ok 0 stdout stderr) cl).1.entries
          = cl.entries ++ [e]
        ∧ e.action = "container_started" ∧ e.user = "system" ∧ e.level = "info") ∧
    (∃ e, (stop_container now name (.ok 0 stdout stderr) cl).1.entries
          = cl.entries ++ [e]
        ∧ e.action = "container_stopped" ∧ e.user = "system" ∧ e.level = "info") ∧
    (∃ e, (restart_container now name (.ok 0 stdout stderr) cl).1.entries
          = cl.entries ++ [e]
        ∧ e.action = "container_restarted" ∧ e.user = "system" ∧ e.level = "info") ∧
    (start_container now name (.ok 0 stdout stderr) cl).2.success = true ∧
    (stop_container now name (.ok 0 stdout stderr) cl).2.success = true ∧
    (restart_container now name (.ok 0 stdout stderr) cl).2.success = true := by
  refine
    ⟨⟨entryFor now cl "container_started"
        ("Container " ++ sqChar ++ name ++ sqChar ++ " started manually") "system" "info",
      ?_, rfl, rfl, rfl⟩,
     ⟨entryFor now cl "container_stopped"
        ("Container " ++ sqChar ++ name ++ sqChar ++ " stopped manually") "system" "info",
      ?_, rfl, rfl, rfl⟩,
     ⟨entryFor now cl "container_restarted"
        ("Container " ++ sqChar ++ name ++ sqChar ++ " restarted manually") "system" "info",
      ?_, rfl, rfl, rfl⟩,
     rfl, rfl, rfl⟩ <;>
    simp [start_container, stop_container, restart_container, add_entry]

/-! ### The monitor cycle under a failed probe -/

theorem get_all_container_status_failed (now : String) (res : ProcOutcome)
    (h : probeFailed res) : get_all_container_status now res = [] := by
  cases res with
  | ok rc stdout stderr =>
      have hrc : rc ≠ 0 := h
      simp [get_all_container_status, hrc]
  | exn m => rfl

theorem check_status_changes_empty_curr (prev : List (String × String)) :
    check_status_changes prev [] = prev.map (fun p => .stopped p.1) := by
  simp only [check_status_changes, List.filterMap_nil, List.nil_append]
  induction prev with
  | nil => rfl
  | cons p rest ih =>
      simp only [List.filterMap_cons, diffPrevEntry, List.lookup] at ih ⊢
      simp [ih]

theorem appendEvents_nil (now : String) (cl : Changelog) :
    appendEvents now [] cl = cl := rfl

theorem appendEvents_entries_proj (now : String) (evs : List ChangeEvent)
    (cl : Changelog) :
    (appendEvents now evs cl).entries.map (fun e => (e.action, e.level))
      = cl.entries.map (fun e => (e.action, e.level))
        ++ evs.map (fun e => ((entryOfEvent e).1, (entryOfEvent e).2.2)) := by
  induction evs generalizing cl with
  | nil => simp [appendEvents]
  | cons e rest ih =>
      simp only [appendEvents, List.foldl_cons] at ih ⊢
      rw [ih]
      simp [add_entry, entryFor]

theorem appendEvents_length (now : String) (evs : List ChangeEvent) (cl : Changelog) :
    (appendEvents now evs cl).entries.length = cl.entries.length + evs.length := by
  have := appendEvents_entries_proj now evs cl
  have h := congrArg List.length this
  simpa using h

/-- C1 counterexample: with one container in the stored view, a failed probe
(an exception in the list command) does not leave the state unchanged — the
cycle appends a `container_stopped` entry and wipes the stored view, because
`get_all_container_status` swallows the failure and returns an empty dict. -/
theorem failed_probe_cycle_counterexample :
    (monitor_cycle "T" (ProcOutcome.exn "timeout")
        ⟨[("A", ⟨"A", "running", "Up 2 hours", "success", "", "img", "0B", "T0"⟩)],
         [("A", "running")], emptyChangelog⟩).changelog.entries.length = 1 ∧
    (emptyChangelog).entries.length = 0 ∧
    (monitor_cycle "T" (ProcOutcome.exn "timeout")
        ⟨[("A", ⟨"A", "running", "Up 2 hours", "success", "", "img", "0B", "T0"⟩)],
         [("A", "running")], emptyChangelog⟩).container_status = [] := by
  refine ⟨?_, rfl, ?_⟩ <;> decide

/-- C1 (amended): a failed probe (non-zero exit, timeout, or exception) is
swallowed inside `get_all_container_status` and yields an empty fleet view;
the cycle then proceeds normally, appending one `container_stopped` entry at
level `warning` per name in the stored previous-status map and replacing
both the stored view and the status map with empty ones.  The stored view
and changelog are unchanged only when the stored state was already empty. -/
theorem failed_probe_cycle (now : String) (res : ProcOutcome) (h : probeFailed res)
    (st : MonitorState) :
    (monitor_cycle now res st).container_status = [] ∧
    (monitor_cycle now res st).previous_status = [] ∧
    (monitor_cycle now res st).changelog.entries.map (fun e => (e.action, e.level))
      = st.changelog.entries.map (fun e => (e.action, e.level))
        ++ st.previous_status.map (fun _ => ("container_stopped", "warning")) ∧
    (monitor_cycle now res st).changelog.entries.length
      = st.changelog.entries.length + st.previous_status.length ∧
    (st.previous_status = [] → (monitor_cycle now res st).changelog = st.changelog) := by
  have hg := get_all_container_status_failed now res h
  have hmap : statusMap (get_all_container_status now res) = [] := by
    rw [hg]; rfl
  refine ⟨?_, ?_, ?_, ?_, ?_⟩
  · simp [monitor_cycle, hg]
  · simp [monitor_cycle, hmap]
  · simp only [monitor_cycle, hmap, check_status_changes_empty_curr]
    rw [appendEvents_entries_proj, List.map_map]
    have hfun : ((fun e => ((entryOfEvent e).1, (entryOfEvent e).2.2)) ∘
          fun p : String × String => ChangeEvent.stopped p.1)
        = fun _ => ("container_stopped", "warning") := by
      funext p; rfl
    rw [hfun]
  · simp only [monitor_cycle, hmap, check_status_changes_empty_curr]
    rw [appendEvents_length]
    simp
  · intro hprev
    simp [monitor_cycle, hmap, check_status_changes_empty_curr, hprev, appendEvents_nil]

/-- Closed witness for `failed_probe_cycle` at an empty prior state and a
non-zero exit code. -/
theorem failed_probe_cycle_witness :
    (monitor_cycle "T" (ProcOutcome.ok 1 "" "err")
        ⟨[], [], emptyChangelog⟩).changelog = emptyChangelog :=
  (failed_probe_cycle "T" (ProcOutcome.ok 1 "" "err") (by decide)
    ⟨[], [], emptyChangelog⟩).2.2.2.2 rfl

/-! ### Association-list lookup lemmas (Python dict membership/indexing) -/

theorem lookup_eq_some_of_mem_nodup {β : Type} :
    ∀ (m : List (String × β)), (m.map Prod.fst).Nodup →
      ∀ p : String × β, p ∈ m → List.lookup p.1 m = some p.2 := by
  intro m
  induction m with
  | nil => intro _ p hp; simp at hp
  | cons q rest ih =>
      intro h p hp
      simp only [List.map_cons, List.nodup_cons] at h
      rcases List.mem_cons.mp hp with rfl | hmem
      · simp [List.lookup]
      · have hne : p.1 ≠ q.1 := by
          intro he
          exact h.1 (he ▸ List.mem_map_of_mem Prod.fst hmem)
        simp only [List.lookup]
        rw [show (p.1 == q.1) = false from beq_eq_false_iff_ne.mpr hne]
        exact ih h.2 p hmem

theorem mem_of_lookup_eq_some {β : Type} :
    ∀ (m : List (String × β)) (n : String) (v : β),
      List.lookup n m = some v → (n, v) ∈ m := by
  intro m
  induction m with
  | nil => intro n v h; simp [List.lookup] at h
  | cons q rest ih =>
      intro n v h
      obtain ⟨a, b⟩ := q
      simp only [List.lookup] at h
      cases hbq : (n == a) with
      | true =>
          rw [hbq] at h
          simp only [Option.some.injEq] at h
          have hn : n = a := beq_iff_eq.mp hbq
          subst hn
          subst h
          exact List.mem_cons_self _ _
      | false =>
          rw [hbq] at h
          exact List.mem_cons_of_mem _ (ih n v h)

theorem lookup_isSome_of_mem_key {β : Type} :
    ∀ (m : List (String × β)) (n : String) (v : β),
      (n, v) ∈ m → (List.lookup n m).isSome := by
  intro m
  induction m with
  | nil => intro n v h; simp at h
  | cons q rest ih =>
      intro n v h
      simp only [List.lookup]
      cases hbq : (n == q.1) with
      | true => rfl
      | false =>
          rcases List.mem_cons.mp h with rfl | hmem
          · simp at hbq
          · exact ih n v hmem

/-- C6: diffing a snapshot against itself emits zero events, so no
changelog entries are appended for it. -/
theorem diff_self_empty (m : List (String × String)) (h : (m.map Prod.fst).Nodup) :
    check_status_changes m m = [] ∧
    (∀ now cl, appendEvents now (check_status_changes m m) cl = cl) := by
  have hl : ∀ p ∈ m, List.lookup p.1 m = some p.2 :=
    fun p hp => lookup_eq_some_of_mem_nodup m h p hp
  have hnil : check_status_changes m m = [] := by
    simp only [check_status_changes]
    rw [List.append_eq_nil]
    constructor
    · rw [List.filterMap_eq_nil_iff]
      intro p hp
      unfold diffCurrEntry
      rw [hl p hp]
      simp
    · rw [List.filterMap_eq_nil_iff]
      intro p hp
      unfold diffPrevEntry
      rw [hl p hp]
  exact ⟨hnil, fun now cl => by rw [hnil]; rfl⟩

/-- Closed witness for `diff_self_empty` at a two-container view. -/
theorem diff_self_empty_witness :
    check_status_changes [("A", "running"), ("B", "stopped")]
      [("A", "running"), ("B", "stopped")] = [] :=
  (diff_self_empty [("A", "running"), ("B", "stopped")] (by decide)).1

/-! ### Characterizing the per-item diff functions -/

theorem diffCurrEntry_eq_started (prev : List (String × String)) (a b n s : String) :
    diffCurrEntry prev (a, b) = some (.started n s) ↔
      a = n ∧ b = s ∧ List.lookup n prev = none := by
  cases hl : List.lookup a prev with
  | none =>
      simp only [diffCurrEntry, hl]
      constructor
      · intro h
        simp only [Option.some.injEq, ChangeEvent.started.injEq] at h
        exact ⟨h.1, h.2, h.1 ▸ hl⟩
      · rintro ⟨rfl, rfl, _⟩
        rfl
  | some old =>
      simp only [diffCurrEntry, hl]
      constructor
      · intro h
        by_cases ho : old = b
        · rw [if_pos ho] at h
          simp at h
        · rw [if_neg ho] at h
          simp at h
      · rintro ⟨rfl, rfl, hnone⟩
        rw [hl] at hnone
        simp at hnone

theorem diffCurrEntry_eq_changed (prev : List (String × String)) (a b n o s : String) :
    diffCurrEntry prev (a, b) = some (.statusChanged n o s) ↔
      a = n ∧ b = s ∧ List.lookup n prev = some o ∧ o ≠ s := by
  cases hl : List.lookup a prev with
  | none =>
      simp only [diffCurrEntry, hl]
      constructor
      · intro h
        simp at h
      · rintro ⟨rfl, rfl, hsome, _⟩
        rw [hl] at hsome
        simp at hsome
  | some old =>
      simp only [diffCurrEntry, hl]
      by_cases ho : old = b
      · rw [if_pos ho]
        constructor
        · intro h
          simp at h
        · rintro ⟨rfl, rfl, hsome, hne⟩
          rw [hl] at hsome
          simp only [Option.some.injEq] at hsome
          exact absurd (hsome.symm.trans ho) hne
      · rw [if_neg ho]
        constructor
        · intro h
          simp only [Option.some.injEq, ChangeEvent.statusChanged.injEq] at h
          obtain ⟨h1, h2, h3⟩ := h
          refine ⟨h1, h3, ?_, ?_⟩
          · rw [← h1, ← h2]
            exact hl
          · rw [← h2, ← h3]
            exact ho
        · rintro ⟨rfl, rfl, hsome, hne⟩
          rw [hl] at hsome
          simp only [Option.some.injEq] at hsome
          rw [hsome]

theorem diffCurrEntry_name (prev : List (String × String)) (a b : String)
    (e : ChangeEvent) (h : diffCurrEntry prev (a, b) = some e) :
    eventName e = a ∧ isStopped e = false := by
  cases hl : List.lookup a prev with
  | none =>
      simp only [diffCurrEntry, hl] at h
      cases h
      exact ⟨rfl, rfl⟩
  | some old =>
      simp only [diffCurrEntry, hl] at h
      by_cases ho : old = b
      · rw [if_pos ho] at h
        cases h
      · rw [if_neg ho] at h
        cases h
        exact ⟨rfl, rfl⟩

theorem diffPrevEntry_eq_stopped (curr : List (String × String)) (a b n : String) :
    diffPrevEntry curr (a, b) = some (.stopped n) ↔
      a = n ∧ List.lookup n curr = none := by
  cases hl : List.lookup a curr with
  | none =>
      simp only [diffPrevEntry, hl]
      constructor
      · intro h
        simp only [Option.some.injEq, ChangeEvent.stopped.injEq] at h
        exact ⟨h, h ▸ hl⟩
      · rintro ⟨rfl, _⟩
        rfl
  | some v =>
      simp only [diffPrevEntry, hl]
      constructor
      · intro h
        simp at h
      · rintro ⟨rfl, hnone⟩
        rw [hl] at hnone
        simp at hnone

theorem diffPrevEntry_name (curr : List (String × String)) (a b : String)
    (e : ChangeEvent) (h : diffPrevEntry curr (a, b) = some e) :
    eventName e = a ∧ isStopped e = true := by
  cases hl : List.lookup a curr with
  | none =>
      simp only [diffPrevEntry, hl] at h
      cases h
      exact ⟨rfl, rfl⟩
  | some v =>
      simp only [diffPrevEntry, hl] at h
      cases h

/-- A `filterMap` over an association list with unique keys is duplicate-free
when the produced events are keyed by the item's name. -/
theorem filterMap_nodup_of_keys {β : Type} (f : String × β → Option ChangeEvent) :
    ∀ (l : List (String × β)), (l.map Prod.fst).Nodup →
      (∀ p e, f p = some e → eventName e = p.1) →
      (l.filterMap f).Nodup := by
  intro l
  induction l with
  | nil => intro _ _; simp
  | cons q rest ih =>
      intro hl hf
      simp only [List.map_cons, List.nodup_cons] at hl
      rw [List.filterMap_cons]
      cases hfq : f q with
      | none => exact ih hl.2 hf
      | some e =>
          refine List.nodup_cons.mpr ⟨?_, ih hl.2 hf⟩
          intro hmem
          obtain ⟨p, hpin, hfp⟩ := List.mem_filterMap.mp hmem
          have h1 : eventName e = q.1 := hf q e hfq
          have h2 : eventName e = p.1 := hf p e hfp
          exact hl.1 (by rw [h1.symm.trans h2]; exact List.mem_map_of_mem Prod.fst hpin)

/-- C5: for key-unique status maps, the diff contains a `started` event
(level info) exactly for names in `curr` but not `prev`, a `statusChanged`
event (level warning, carrying old and new status) exactly for names in
both with differing status, a `stopped` event (level warning) exactly for
names in `prev` but not `curr` — each at most once, and no other events. -/
theorem diff_events_characterization (prev curr : List (String × String))
    (hp : (prev.map Prod.fst).Nodup) (hc : (curr.map Prod.fst).Nodup) :
    (∀ n s, ChangeEvent.started n s ∈ check_status_changes prev curr ↔
        (List.lookup n curr = some s ∧ List.lookup n prev = none)) ∧
    (∀ n o s, ChangeEvent.statusChanged n o s ∈ check_status_changes prev curr ↔
        (List.lookup n prev = some o ∧ List.lookup n curr = some s ∧ o ≠ s)) ∧
    (∀ n, ChangeEvent.stopped n ∈ check_status_changes prev curr ↔
        ((List.lookup n prev).isSome ∧ List.lookup n curr = none)) ∧
    (check_status_changes prev curr).Nodup ∧
    (∀ n s, (entryOfEvent (ChangeEvent.started n s)).2.2 = "info") ∧
    (∀ n o s, (entryOfEvent (ChangeEvent.statusChanged n o s)).2.2 = "warning") ∧
    (∀ n, (entryOfEvent (ChangeEvent.stopped n)).2.2 = "warning") := by
  refine ⟨?_, ?_, ?_, ?_, fun n s => rfl, fun n o s => rfl, fun n => rfl⟩
  · intro n s
    simp only [check_status_changes, List.mem_append, List.mem_filterMap]
    constructor
    · rintro (⟨p, hpin, hfp⟩ | ⟨p, hpin, hfp⟩)
      · obtain ⟨a, b⟩ := p
        rw [diffCurrEntry_eq_started] at hfp
        obtain ⟨rfl, rfl, hnone⟩ := hfp
        exact ⟨lookup_eq_some_of_mem_nodup curr hc (a, b) hpin, hnone⟩
      · obtain ⟨a, b⟩ := p
        have := diffPrevEntry_name curr a b _ hfp
        simp [isStopped] at this
    · rintro ⟨hcur, hprev⟩
      left
      refine ⟨(n, s), mem_of_lookup_eq_some curr n s hcur, ?_⟩
      rw [diffCurrEntry_eq_started]
      exact ⟨rfl, rfl, hprev⟩
  · intro n o s
    simp only [check_status_changes, List.mem_append, List.mem_filterMap]
    constructor
    · rintro (⟨p, hpin, hfp⟩ | ⟨p, hpin, hfp⟩)
      · obtain ⟨a, b⟩ := p
        rw [diffCurrEntry_eq_changed] at hfp
        obtain ⟨rfl, rfl, hsome, hne⟩ := hfp
        exact ⟨hsome, lookup_eq_some_of_mem_nodup curr hc (a, b) hpin, hne⟩
      · obtain ⟨a, b⟩ := p
        have := diffPrevEntry_name curr a b _ hfp
        simp [isStopped] at this
    · rintro ⟨hpv, hcur, hne⟩
      left
      refine ⟨(n, s), mem_of_lookup_eq_some curr n s hcur, ?_⟩
      rw [diffCurrEntry_eq_changed]
      exact ⟨rfl, rfl, hpv, hne⟩
  · intro n
    simp only [check_status_changes, List.mem_append, List.mem_filterMap]
    constructor
    · rintro (⟨p, hpin, hfp⟩ | ⟨p, hpin, hfp⟩)
      · obtain ⟨a, b⟩ := p
        have := diffCurrEntry_name prev a b _ hfp
        simp [isStopped] at this
      · obtain ⟨a, b⟩ := p
        rw [diffPrevEntry_eq_stopped] at hfp
        obtain ⟨rfl, hnone⟩ := hfp
        exact ⟨lookup_isSome_of_mem_key prev a b hpin, hnone⟩
    · rintro ⟨hsome, hnone⟩
      right
      obtain ⟨v, hv⟩ := Option.isSome_iff_exists.mp hsome
      refine ⟨(n, v), mem_of_lookup_eq_some prev n v hv, ?_⟩
      rw [diffPrevEntry_eq_stopped]
      exact ⟨rfl, hnone⟩
  · apply List.Nodup.append
    · exact filterMap_nodup_of_keys (diffCurrEntry prev) curr hc
        (fun p e h => by
          obtain ⟨a, b⟩ := p
          exact (diffCurrEntry_name prev a b e h).1)
    · exact filterMap_nodup_of_keys (diffPrevEntry curr) prev hp
        (fun p e h => by
          obtain ⟨a, b⟩ := p
          exact (diffPrevEntry_name curr a b e h).1)
    · intro e he1 he2
      obtain ⟨p, hpin, hfp⟩ := List.mem_filterMap.mp he1
      obtain ⟨q, hqin, hfq⟩ := List.mem_filterMap.mp he2
      obtain ⟨a, b⟩ := p
      obtain ⟨c, d⟩ := q
      have h1 := (diffCurrEntry_name prev a b e hfp).2
      have h2 := (diffPrevEntry_name curr c d e hfq).2
      rw [h1] at h2
      cases h2

/-- Closed witness for `diff_events_characterization`: the spec's example
diff yields the `status_changed` event for A. -/
theorem diff_events_characterization_witness :
    ChangeEvent.statusChanged "A" "running" "stopped"
      ∈ check_status_changes [("A", "running"), ("B", "running")]
          [("A", "stopped"), ("B", "running")] :=
  ((diff_events_characterization [("A", "running"), ("B", "running")]
      [("A", "stopped"), ("B", "running")] (by decide) (by decide)).2.1 "A" "running"
    "stopped").mpr (by decide)

/-! ### Probe output parsing -/

theorem classifyStatus_fst (st : String) :
    (classifyStatus st).1 =
      (if containsStr st "Up" then "running"
       else if containsStr st "Exited" then "stopped"
       else if containsStr st "Created" then "created"
       else "unknown") := by
  unfold classifyStatus
  by_cases h1 : containsStr st "Up" <;> by_cases h2 : containsStr st "Exited" <;>
    by_cases h3 : containsStr st "Created" <;> simp [h1, h2, h3]

/-- C9: a line with fewer than five tab-separated columns parses to nothing
and contributes nothing to the resulting fleet view, and every parsed
snapshot's status is classified from its raw status text by the ordered
substring match Up/running, Exited/stopped, Created/created, else unknown. -/
theorem probe_line_parsing (now line : String) :
    ((pySplit "\t" line).length < 5 → parseLine now line = none) ∧
    (∀ pre post, (pySplit "\t" line).length < 5 →
        buildView now (pre ++ line :: post) = buildView now (pre ++ post)) ∧
    (∀ n snap, parseLine now line = some (n, snap) →
        snap.status =
          (if containsStr snap.status_text "Up" then "running"
           else if containsStr snap.status_text "Exited" then "stopped"
           else if containsStr snap.status_text "Created" then "created"
           else "unknown")) := by
  have hskip : (pySplit "\t" line).length < 5 → parseLine now line = none := by
    intro h5
    simp only [parseLine]
    split
    · rfl
    · split
      · next hle => exact absurd hle (by omega)
      · rfl
  refine ⟨hskip, ?_, ?_⟩
  · intro pre post h5
    have hnone := hskip h5
    simp only [buildView, List.foldl_append, List.foldl_cons, hnone]
  · intro n snap hsome
    simp only [parseLine] at hsome
    split at hsome
    · cases hsome
    · split at hsome
      · simp only [Option.some.injEq, Prod.mk.injEq] at hsome
        obtain ⟨h1, h2⟩ := hsome
        subst h2
        exact classifyStatus_fst _
      · cases hsome

/-- The snapshot parsed from the witness line `web<TAB>Up 3 hours<TAB>...`. -/
def webSnap : Snapshot :=
  ⟨"web", "running", "Up 3 hours", "success", "80", "img", "10MB", "T"⟩

/-- Closed witness for `probe_line_parsing`: a two-column line is skipped and
contributes nothing, and a parsed `Up ...` line classifies as running. -/
theorem probe_line_parsing_witness :
    parseLine "T" "a\tb" = none ∧
    buildView "T" (["x\tUp 1s\tp\ti\ts"] ++ "a\tb" :: [])
      = buildView "T" (["x\tUp 1s\tp\ti\ts"] ++ []) ∧
    webSnap.status =
      (if containsStr webSnap.status_text "Up" then "running"
       else if containsStr webSnap.status_text "Exited" then "stopped"
       else if containsStr webSnap.status_text "Created" then "created"
       else "unknown") :=
  ⟨(probe_line_parsing "T" "a\tb").1 (by decide),
   (probe_line_parsing "T" "a\tb").2.1 ["x\tUp 1s\tp\ti\ts"] [] (by decide),
   (probe_line_parsing "T" "web\tUp 3 hours\t80\timg\t10MB").2.2 "web" webSnap (by decide)⟩
